import Mathlib

/-!
Verification development for the GFPGAN batch-inference driver
(`inference_gfpgan.py`).  The script's `run_main(_input, _output)` entry
point is embedded shallowly: the filesystem, the CUDA probe and the external
`GFPGANer.enhance` engine are oracles collected in an `Env` record, and the
run is modelled as the list of observable actions (directory creation,
warnings, restorer construction, engine calls, image writes) together with
its return value.  All Python string/path operations used by the script
(`os.path.join`, `os.path.basename`, `os.path.splitext`, `sorted`, `glob`
with a `*` pattern, f-string `{idx:02d}` formatting, slicing) are translated
character-for-character.
-/

namespace GFPGAN

/-! ### Python string and path primitives -/

/-- Strict lexicographic comparison of character lists by code point,
as Python compares `str` values. -/
def strLtb : List Char → List Char → Bool
  | [], [] => false
  | [], _ :: _ => true
  | _ :: _, [] => false
  | a :: as, b :: bs =>
    if a.toNat < b.toNat then true
    else if b.toNat < a.toNat then false
    else strLtb as bs

/-- `s <= t` in Python's total order on strings. -/
def strLe (s t : String) : Bool := !(strLtb t.data s.data)

/-- `s <= t` as a proposition, the order `sorted` uses. -/
def strLeP (s t : String) : Prop := strLe s t = true

instance : DecidableRel strLeP := fun s t => instDecidableEqBool (strLe s t) true

/-- Python `sorted` on a list of strings (ascending, lexicographic,
stable), realized as an insertion sort. -/
def pySorted : List String → List String := List.insertionSort strLeP

/-- Python `s.endswith(c)` for a one-character suffix `c`. -/
def strEndsWith (s : String) (c : Char) : Bool := s.data.getLast? == some c

/-- Python `s.startswith(c)` for a one-character head `c`. -/
def strStartsWith (s : String) (c : Char) : Bool := s.data.head? == some c

/-- Python `s[:-1]`. -/
def dropLastChar (s : String) : String := String.mk s.data.dropLast

/-- Python `s[1:]`. -/
def dropFirstChar (s : String) : String := String.mk (s.data.drop 1)

/-- `os.path.join(a, b)` on POSIX: an absolute second component wins,
otherwise the parts are glued with exactly one separator. -/
def pyJoin (a b : String) : String :=
  if strStartsWith b '/' then b
  else if a = "" then b
  else if strEndsWith a '/' then a ++ b
  else a ++ "/" ++ b

/-- `os.path.join(a, b, c)`. -/
def pyJoin3 (a b c : String) : String := pyJoin (pyJoin a b) c

/-- What `os.path.join` puts in front of a relative second component:
the first component and, unless it is empty or already ends in a
separator, one `/`. -/
def joinBase (a : String) : String :=
  if a = "" then "" else if strEndsWith a '/' then a else a ++ "/"

/-- `os.path.basename`: everything after the last separator. -/
def basename (p : String) : String :=
  String.mk ((p.data.reverse.takeWhile (fun c => c != '/')).reverse)

/-- Index of the last occurrence of `c`, if any. -/
def lastIdxOf : List Char → Char → Option Nat
  | [], _ => none
  | x :: xs, c =>
    match lastIdxOf xs c with
    | some j => some (j + 1)
    | none => if x = c then some 0 else none

/-- `os.path.splitext` on a plain file name (no separators): split at the
last dot, except that a name consisting only of leading dots up to that
dot keeps no extension. -/
def splitext (name : String) : String × String :=
  let cs := name.data
  match lastIdxOf cs '.' with
  | none => (name, "")
  | some d =>
    if (cs.take d).any (fun c => c != '.') then
      (String.mk (cs.take d), String.mk (cs.drop d))
    else (name, "")

/-- Decimal digits of `n` accumulated most-significant first; the fuel
argument bounds the recursion and `n` itself always suffices. -/
def natDigitsAux : Nat → Nat → List Char → List Char
  | 0, _, acc => acc
  | fuel + 1, n, acc =>
    if n = 0 then acc else natDigitsAux fuel (n / 10) (Nat.digitChar (n % 10) :: acc)

/-- Decimal representation of a natural number. -/
def natDigits (n : Nat) : List Char := if n = 0 then ['0'] else natDigitsAux n n []

/-- Python `f-string` formatting `{n:02d}`: zero-pad to width two. -/
def pad2 (n : Nat) : String :=
  if n < 10 then String.mk ('0' :: natDigits n) else String.mk (natDigits n)

/-! ### Data model -/

/-- Opaque image values; `hconcat` models `np.concatenate(..., axis=1)`,
used for the side-by-side comparison artifact. -/
inductive Image where
  | raw (id : Nat)
  | hconcat (a b : Image)
deriving DecidableEq

/-- Result triple of `GFPGANer.enhance`. -/
structure EnhanceResult where
  cropped_faces : List Image
  restored_faces : List Image
  restored_img : Option Image
deriving DecidableEq

/-- Constructor arguments of `RealESRGANer` as used by the script. -/
structure RealESRGANerConfig where
  scale : Nat
  model_path : String
  tile : Nat
  tile_pad : Nat
  pre_pad : Nat
  half : Bool
deriving DecidableEq

/-- The per-version data chosen by the `if/elif` chain of the script. -/
structure VariantConfig where
  arch : String
  channel_multiplier : Nat
  model_name : String
  url : String
deriving DecidableEq

/-- Observable actions of a run. -/
inductive Event where
  | mkdir (path : String)
  | warn (msg : String)
  | mkRestorer (model_path : String) (upscale : Nat) (arch : String)
      (channel_multiplier : Nat) (bg : Option RealESRGANerConfig)
  | enhanceCall (img : Option Image) (has_aligned only_center_face paste_back : Bool)
      (weight : Rat)
  | imwrite (img : Image) (path : String)
deriving DecidableEq

/-- Ways the script can abort: the `raise ValueError` for an unknown model
version, and the `NameError` from returning `img_name` when the loop body
never ran. -/
inductive RunError where
  | wrongModelVersion
  | unboundImgName
deriving DecidableEq

/-- The oracles the script consults: `os.path.isfile`, directory listing
(for `glob`), `torch.cuda.is_available()`, `cv2.imread` (`none` on a failed
decode, as `imread` returns `None`), and the external restoration engine,
which receives whatever `imread` produced. -/
structure Env where
  isfile : String → Bool
  listdir : String → List String
  cuda : Bool
  decode : String → Option Image
  enhance : Option Image → EnhanceResult

/-- The `args` dictionary of `run_main`. -/
structure Args where
  input : String
  output : String
  version : String
  upscale : Nat
  bg_upsampler : String
  bg_tile : Nat
  suffix : Option String
  only_center_face : Bool
  aligned : Bool
  ext : String
  weight : Rat

/-! ### Components -/

/-- Warning emitted when RealESRGAN is requested without CUDA. -/
def realesrganWarning : String :=
  "The unoptimized RealESRGAN is slow on CPU. We do not use it. If you really want to use it, please modify the corresponding codes."

/-- Canonical RealESRGAN x2 weight URL used by the script. -/
def realesrganUrl : String :=
  "https://github.com/xinntao/Real-ESRGAN/releases/download/v0.2.1/RealESRGAN_x2plus.pth"

/-- Background upsampler setup (script lines 44-63): returns the optional
handle and the warnings emitted. -/
def setupBgUpsampler (sel : String) (cuda : Bool) (bg_tile : Nat) :
    Option RealESRGANerConfig × List Event :=
  if sel = "realesrgan" then
    if !cuda then (none, [Event.warn realesrganWarning])
    else
      (some { scale := 2, model_path := realesrganUrl, tile := bg_tile,
              tile_pad := 10, pre_pad := 0, half := true }, [])
  else (none, [])

/-- The `if/elif` chain on `args['version']` (script lines 66-92); `none`
models the `raise ValueError`. -/
def getVariant (version : String) : Option VariantConfig :=
  if version = "1" then
    some ⟨"original", 1, "GFPGANv1",
      "https://github.com/TencentARC/GFPGAN/releases/download/v0.1.0/GFPGANv1.pth"⟩
  else if version = "1.2" then
    some ⟨"clean", 2, "GFPGANCleanv1-NoCE-C2",
      "https://github.com/TencentARC/GFPGAN/releases/download/v0.2.0/GFPGANCleanv1-NoCE-C2.pth"⟩
  else if version = "1.3" then
    some ⟨"clean", 2, "GFPGANv1.3",
      "https://github.com/TencentARC/GFPGAN/releases/download/v1.3.0/GFPGANv1.3.pth"⟩
  else if version = "1.4" then
    some ⟨"clean", 2, "GFPGANv1.4",
      "https://github.com/TencentARC/GFPGAN/releases/download/v1.3.0/GFPGANv1.4.pth"⟩
  else if version = "RestoreFormer" then
    some ⟨"RestoreFormer", 2, "RestoreFormer",
      "https://github.com/TencentARC/GFPGAN/releases/download/v1.3.4/RestoreFormer.pth"⟩
  else none

/-- First candidate location for the weights. -/
def cachePath (model_name : String) : String :=
  pyJoin "experiments/pretrained_models" (model_name ++ ".pth")

/-- Second candidate location for the weights. -/
def weightsPath (model_name : String) : String :=
  pyJoin "gfpgan/weights" (model_name ++ ".pth")

/-- Weight resolution (script lines 94-100), with the same reassign-and-
recheck structure as the source. -/
def resolveModelPath (isfile : String → Bool) (model_name url : String) : String :=
  let model_path := cachePath model_name
  let model_path := if !isfile model_path then weightsPath model_name else model_path
  let model_path := if !isfile model_path then url else model_path
  model_path

/-! ### Batch orchestration -/

/-- Input normalization (script lines 34-35): drop one trailing slash. -/
def normalizeInput (s : String) : String :=
  if strEndsWith s '/' then dropLastChar s else s

/-- Whether a path is free of the `glob` pattern metacharacters `*`, `?`
and `[`. -/
def noGlobMeta (s : String) : Bool :=
  s.data.all (fun c => c != '*' && c != '?' && c != '[')

/-- Job enumeration (script lines 36-39): a single file, or
`sorted(glob.glob(os.path.join(input, '*')))`.  `glob` treats the whole
pattern — including the input path itself — as pattern syntax.  This
definition models the directory branch as listing the non-hidden entries
of the literal input directory joined to the input path, which is what
the pattern `<input>/*` matches when the input path is free of the
metacharacters `*`, `?` and `[` (`noGlobMeta`); an input path containing
them is expanded by `glob` and can enumerate other directories, which
this embedding does not model — theorems about this branch therefore
carry a `noGlobMeta` hypothesis. -/
def enumerateJobs (env : Env) (input : String) : List String :=
  if env.isfile input then [input]
  else
    pySorted (((env.listdir input).filter (fun n => !(strStartsWith n '.'))).map
      (fun n => pyJoin input n))

/-- `f-string` name of the cropped-face and comparison artifacts. -/
def croppedName (bn : String) (idx : Nat) : String :=
  bn ++ "_" ++ pad2 idx ++ ".png"

/-- Name of the restored-face artifact (script lines 131-134). -/
def restoredFaceName (bn : String) (idx : Nat) (sfx : Option String) : String :=
  match sfx with
  | some s => bn ++ "_" ++ pad2 idx ++ "_" ++ s ++ ".png"
  | none => bn ++ "_" ++ pad2 idx ++ ".png"

/-- Name of the full restored image (script lines 148-152). -/
def fullName (bn : String) (sfx : Option String) (extension : String) : String :=
  match sfx with
  | some s => bn ++ "_" ++ s ++ "." ++ extension
  | none => bn ++ "." ++ extension

/-- The `for idx, (cropped_face, restored_face) in enumerate(zip(...))`
loop (script lines 126-139). -/
def saveFaces (out : String) (sfx : Option String) (bn : String) :
    Nat → List (Image × Image) → List Event
  | _, [] => []
  | idx, (cf, rf) :: rest =>
    Event.imwrite cf (pyJoin3 out "cropped_faces" (croppedName bn idx)) ::
    Event.imwrite rf (pyJoin3 out "restored_faces" (restoredFaceName bn idx sfx)) ::
    Event.imwrite (Image.hconcat cf rf) (pyJoin3 out "cmp" (croppedName bn idx)) ::
    saveFaces out sfx bn (idx + 1) rest

/-- One iteration of the restore loop (script lines 110-153): decode,
call the engine on whatever the decode produced, save the per-face
artifacts, and save the full restored image if the engine returned one. -/
def processImage (args : Args) (env : Env) (img_path : String) : List Event :=
  let img_name := basename img_path
  let se := splitext img_name
  let input_img := env.decode img_path
  let r := env.enhance input_img
  let faceEvs := saveFaces args.output args.suffix se.1 0 (r.cropped_faces.zip r.restored_faces)
  let fullEvs :=
    match r.restored_img with
    | none => []
    | some restored_img =>
      let extension := if args.ext = "auto" then dropFirstChar se.2 else args.ext
      [Event.imwrite restored_img
        (pyJoin3 args.output "restored_imgs" (fullName se.1 args.suffix extension))]
  Event.enhanceCall input_img args.aligned args.only_center_face true args.weight ::
    (faceEvs ++ fullEvs)

/-- The whole restore loop over the job list. -/
def processAll (args : Args) (env : Env) : List String → List Event
  | [] => []
  | p :: ps => processImage args env p ++ processAll args env ps

/-- The body of `run_main` after the `args` dictionary is fixed: returns
the event trace and the return value (or the abort). The final statement
returns `args['output'] + '/restored_imgs/' + img_name`, where `img_name`
is the loop variable left over from the last iteration; with an empty job
list that name was never bound, which is the `unboundImgName` outcome. -/
def run_core (args0 : Args) (env : Env) : List Event × Except RunError String :=
  let args := { args0 with input := normalizeInput args0.input }
  let img_list := enumerateJobs env args.input
  let preEvs := [Event.mkdir args.output]
  let bgSetup := setupBgUpsampler args.bg_upsampler env.cuda args.bg_tile
  match getVariant args.version with
  | none => (preEvs ++ bgSetup.2, Except.error RunError.wrongModelVersion)
  | some vc =>
    let model_path := resolveModelPath env.isfile vc.model_name vc.url
    let mkEv := Event.mkRestorer model_path args.upscale vc.arch vc.channel_multiplier bgSetup.1
    let evs := processAll args env img_list
    match img_list.getLast? with
    | none => (preEvs ++ bgSetup.2 ++ [mkEv] ++ evs, Except.error RunError.unboundImgName)
    | some lastPath =>
      (preEvs ++ bgSetup.2 ++ [mkEv] ++ evs,
        Except.ok (args.output ++ "/restored_imgs/" ++ basename lastPath))

/-- The literal `args` dictionary of `run_main` (script lines 19-31). -/
def run_main_args (_input _output : String) : Args :=
  { input := _input, output := _output, version := "1.3", upscale := 2,
    bg_upsampler := "realesrgan", bg_tile := 400, suffix := none,
    only_center_face := false, aligned := false, ext := "auto", weight := 1/2 }

/-- The public entry point `run_main(_input, _output)`. -/
def run_main (_input _output : String) (env : Env) : List Event × Except RunError String :=
  run_core (run_main_args _input _output) env

/-! ### Observations on traces -/

/-- The path of a write event, if the event is a write. -/
def Event.writePath : Event → Option String
  | .imwrite _ p => some p
  | _ => none

/-- Whether the event is an engine invocation. -/
def Event.isEnhanceCall : Event → Bool
  | .enhanceCall .. => true
  | _ => false

/-- All artifact paths written in a trace, in order. -/
def writePaths (evs : List Event) : List String := evs.filterMap Event.writePath

/-- The per-face artifact paths of one job as a pure function of the
output root, suffix, basename and face count. -/
def facePaths (out : String) (sfx : Option String) (bn : String) :
    Nat → Nat → List String
  | _, 0 => []
  | idx, m + 1 =>
    pyJoin3 out "cropped_faces" (croppedName bn idx) ::
    pyJoin3 out "restored_faces" (restoredFaceName bn idx sfx) ::
    pyJoin3 out "cmp" (croppedName bn idx) ::
    facePaths out sfx bn (idx + 1) m

/-- All artifact paths of one job as a pure function of the output root,
suffix, extension policy, basename, source extension, face count and
whether a full restored image was produced. -/
def jobWritePaths (out : String) (sfx : Option String) (extPolicy : String)
    (bn ext : String) (nFaces : Nat) (hasFull : Bool) : List String :=
  facePaths out sfx bn 0 nFaces ++
  (if hasFull then
    [pyJoin3 out "restored_imgs"
      (fullName bn sfx (if extPolicy = "auto" then dropFirstChar ext else extPolicy))]
  else [])

/-! ### Concrete oracle instantiations used as refutation and witness inputs -/

/-- An engine that finds no face and produces no full image. -/
def emptyEnhance : Option Image → EnhanceResult := fun _ => ⟨[], [], none⟩

/-- An engine that finds one face and returns a full restored image
whenever it was given a successfully decoded image. -/
def oneFaceEnhance : Option Image → EnhanceResult
  | some _ => ⟨[Image.raw 2], [Image.raw 3], some (Image.raw 4)⟩
  | none => ⟨[], [], none⟩

/-- An engine that detects no face but restores the full frame when the
decode succeeded. -/
def fullOnlyEnhance : Option Image → EnhanceResult
  | some _ => ⟨[], [], some (Image.raw 9)⟩
  | none => ⟨[], [], none⟩

/-- A filesystem with an empty input directory. -/
def envEmptyDir : Env :=
  ⟨fun _ => false, fun _ => [], false, fun _ => none, emptyEnhance⟩

/-- A filesystem whose directory `d` holds only the hidden entry `.a.jpg`. -/
def envHidden : Env :=
  ⟨fun _ => false, fun d => if d = "d" then [".a.jpg"] else [], false,
   fun _ => none, emptyEnhance⟩

/-- Directory `d` with `a.jpg` (undecodable) and `b.jpg` (fine). -/
def envBadDecode : Env :=
  ⟨fun _ => false, fun d => if d = "d" then ["a.jpg", "b.jpg"] else [], false,
   fun p => if p = "d/b.jpg" then some (Image.raw 1) else none, oneFaceEnhance⟩

/-- A single readable file `photo.jpg`. -/
def envSingleJpg : Env :=
  ⟨fun p => p == "photo.jpg", fun _ => [], false,
   fun p => if p = "photo.jpg" then some (Image.raw 1) else none, oneFaceEnhance⟩

/-- A single readable file `portrait.jpg`. -/
def envPortrait : Env :=
  ⟨fun p => p == "portrait.jpg", fun _ => [], false,
   fun p => if p = "portrait.jpg" then some (Image.raw 1) else none, oneFaceEnhance⟩

/-- A single readable file `in/a.jpg`. -/
def envLastJpg : Env :=
  ⟨fun p => p == "in/a.jpg", fun _ => [], false,
   fun p => if p = "in/a.jpg" then some (Image.raw 1) else none, oneFaceEnhance⟩

/-- A single readable, extensionless file `data/photo`. -/
def envNoExt : Env :=
  ⟨fun p => p == "data/photo", fun _ => [], false,
   fun p => if p = "data/photo" then some (Image.raw 1) else none, fullOnlyEnhance⟩

/-! ## Helper lemmas -/

/-- The reassign-and-recheck weight resolution equals its first-match
reading: the pretrained-models cache, then the secondary weights
directory, then the download URL. -/
theorem resolveModelPath_eq (isfile : String → Bool) (m u : String) :
    resolveModelPath isfile m u =
      if isfile (cachePath m) then cachePath m
      else if isfile (weightsPath m) then weightsPath m
      else u := by
  by_cases h1 : isfile (cachePath m) <;> by_cases h2 : isfile (weightsPath m) <;>
    simp [resolveModelPath, h1, h2]

/-- Weight resolution always lands on one of the three candidates. -/
theorem resolveModelPath_mem (isfile : String → Bool) (m u : String) :
    resolveModelPath isfile m u = cachePath m ∨
      resolveModelPath isfile m u = weightsPath m ∨ resolveModelPath isfile m u = u := by
  rw [resolveModelPath_eq]
  by_cases h1 : isfile (cachePath m) <;> by_cases h2 : isfile (weightsPath m) <;>
    simp [h1, h2]

/-- A version string other than the five recognized ones falls through
every branch of the dispatch. -/
theorem getVariant_eq_none {version : String}
    (h : version ∉ ["1", "1.2", "1.3", "1.4", "RestoreFormer"]) :
    getVariant version = none := by
  simp only [List.mem_cons, List.not_mem_nil, or_false, not_or] at h
  obtain ⟨h1, h2, h3, h4, h5⟩ := h
  simp [getVariant, h1, h2, h3, h4, h5]

/-- The background-upsampler setup emits at most the CPU warning. -/
theorem setupBg_events (sel : String) (cuda : Bool) (t : Nat) :
    ∀ e ∈ (setupBgUpsampler sel cuda t).2, e = Event.warn realesrganWarning := by
  intro e he
  unfold setupBgUpsampler at he
  by_cases h1 : sel = "realesrgan" <;> simp [h1] at he
  cases cuda <;> simp_all

/-- Write paths distribute over trace concatenation. -/
theorem writePaths_append (a b : List Event) :
    writePaths (a ++ b) = writePaths a ++ writePaths b :=
  List.filterMap_append a b Event.writePath

/-- When the version dispatch succeeds, the trace of a run is the mkdir,
the background-upsampler events, the restorer construction, and the
per-job events of the enumerated job list, in that order. -/
theorem run_core_trace (args : Args) (env : Env) (vc : VariantConfig)
    (hv : getVariant args.version = some vc) :
    (run_core args env).1 =
      [Event.mkdir args.output] ++
      (setupBgUpsampler args.bg_upsampler env.cuda args.bg_tile).2 ++
      [Event.mkRestorer (resolveModelPath env.isfile vc.model_name vc.url) args.upscale
        vc.arch vc.channel_multiplier
        (setupBgUpsampler args.bg_upsampler env.cuda args.bg_tile).1] ++
      processAll { args with input := normalizeInput args.input } env
        (enumerateJobs env (normalizeInput args.input)) := by
  unfold run_core
  simp only [hv]
  cases (enumerateJobs env (normalizeInput args.input)).getLast? <;> rfl

/-- When the version dispatch succeeds and the job list is non-empty, the
run returns the output root glued to `/restored_imgs/` and the basename
of the last job. -/
theorem run_core_ret (args : Args) (env : Env) (vc : VariantConfig)
    (hv : getVariant args.version = some vc) (p : String)
    (hlast : (enumerateJobs env (normalizeInput args.input)).getLast? = some p) :
    (run_core args env).2 =
      Except.ok (args.output ++ "/restored_imgs/" ++ basename p) := by
  unfold run_core
  simp only [hv, hlast]

/-- The background-upsampler setup writes nothing. -/
theorem writePaths_setupBg (sel : String) (cuda : Bool) (t : Nat) :
    writePaths (setupBgUpsampler sel cuda t).2 = [] := by
  by_cases h : sel = "realesrgan"
  · subst h; cases cuda <;> rfl
  · simp only [setupBgUpsampler, if_neg h]; rfl

/-- The events of a member job all occur in the whole-batch trace. -/
theorem processAll_mem (args : Args) (env : Env) {p : String} :
    ∀ {l : List String}, p ∈ l →
      ∀ e ∈ processImage args env p, e ∈ processAll args env l := by
  intro l hp e he
  induction l with
  | nil => cases hp
  | cons q qs ih =>
    rcases List.mem_cons.mp hp with h | h
    · subst h
      exact List.mem_append.mpr (Or.inl he)
    · exact List.mem_append.mpr (Or.inr (ih h))

/-! ## Claims -/

/-- Claim C1: on a directory input enumerating zero images the run writes
no artifacts, but instead of returning a defined empty-result sentinel it
aborts: the final `return` references the loop variable `img_name`, which
was never assigned, so the run ends in the `unboundImgName` failure
(Python: `NameError`/`UnboundLocalError`). -/
theorem claim_C1_empty_batch :
    writePaths (run_main "frames" "out" envEmptyDir).1 = [] ∧
    (run_main "frames" "out" envEmptyDir).2 = Except.error RunError.unboundImgName :=
  ⟨rfl, rfl⟩

/-- Claim C2, counterexample: face-level artifacts do not follow the
extension policy (for the source file `photo.jpg` under the `auto` policy
the claim predicts `photo_00.jpg`, the code writes `photo_00.png`), and
with a configured suffix the cropped-face and comparison artifacts do not
carry it (the code writes `photo_00.png`, not `photo_00_v.png`). -/
theorem claim_C2_counterexample :
    "out/cropped_faces/photo_00.png" ∈ writePaths (run_main "photo.jpg" "out" envSingleJpg).1 ∧
    "out/cropped_faces/photo_00.jpg" ∉ writePaths (run_main "photo.jpg" "out" envSingleJpg).1 ∧
    writePaths (processImage { run_main_args "photo.jpg" "out" with suffix := some "v" }
        envSingleJpg "photo.jpg") =
      ["out/cropped_faces/photo_00.png", "out/restored_faces/photo_00_v.png",
       "out/cmp/photo_00.png", "out/restored_imgs/photo_v.jpg"] := by
  refine ⟨by decide, by decide, rfl⟩

/-- Claim C3: for each of the five recognized versions the dispatch
succeeds, weight resolution checks the pretrained-models cache, then the
secondary weights directory, then unconditionally falls back to the
canonical URL (first match wins), and the result is never empty. -/
theorem claim_C3_weight_resolution (isfile : String → Bool) (version : String)
    (h : version ∈ ["1", "1.2", "1.3", "1.4", "RestoreFormer"]) :
    ∃ vc, getVariant version = some vc ∧
      resolveModelPath isfile vc.model_name vc.url =
        (if isfile (cachePath vc.model_name) then cachePath vc.model_name
         else if isfile (weightsPath vc.model_name) then weightsPath vc.model_name
         else vc.url) ∧
      resolveModelPath isfile vc.model_name vc.url ≠ "" := by
  fin_cases h <;>
  · refine ⟨_, rfl, resolveModelPath_eq _ _ _, ?_⟩
    rcases resolveModelPath_mem isfile _ _ with h2 | h2 | h2 <;> rw [h2] <;> decide

/-- Witness for C3 at version 1.3 with no local weight files present. -/
theorem claim_C3_weight_resolution_witness :
    ∃ vc, getVariant "1.3" = some vc ∧
      resolveModelPath (fun _ => false) vc.model_name vc.url =
        (if (fun (_ : String) => false) (cachePath vc.model_name) then cachePath vc.model_name
         else if (fun (_ : String) => false) (weightsPath vc.model_name) then
           weightsPath vc.model_name
         else vc.url) ∧
      resolveModelPath (fun _ => false) vc.model_name vc.url ≠ "" :=
  claim_C3_weight_resolution (fun _ => false) "1.3" (by decide)

/-- Claim C4: requesting RealESRGAN without CUDA disables the background
upsampler with a warning; any other selection disables it silently; with
CUDA the tiled upsampler is configured with scale 2, the configured tile
size, tile padding 10 and pre-padding 0. -/
theorem claim_C4_bg_upsampler (sel : String) (cuda : Bool) (tile : Nat) :
    (sel = "realesrgan" → cuda = false →
      setupBgUpsampler sel cuda tile = (none, [Event.warn realesrganWarning])) ∧
    (sel ≠ "realesrgan" → setupBgUpsampler sel cuda tile = (none, [])) ∧
    (sel = "realesrgan" → cuda = true →
      setupBgUpsampler sel cuda tile =
        (some { scale := 2, model_path := realesrganUrl, tile := tile,
                tile_pad := 10, pre_pad := 0, half := true }, [])) := by
  refine ⟨fun h1 h2 => ?_, fun h => ?_, fun h1 h2 => ?_⟩
  · subst h1; subst h2; rfl
  · simp [setupBgUpsampler, h]
  · subst h1; subst h2; rfl

/-- Witness for C4 covering all three branches. -/
theorem claim_C4_bg_upsampler_witness :
    setupBgUpsampler "realesrgan" false 400 = (none, [Event.warn realesrganWarning]) ∧
    setupBgUpsampler "esrgan" true 400 = (none, []) ∧
    setupBgUpsampler "realesrgan" true 400 =
      (some { scale := 2, model_path := realesrganUrl, tile := 400,
              tile_pad := 10, pre_pad := 0, half := true }, []) :=
  ⟨(claim_C4_bg_upsampler "realesrgan" false 400).1 rfl rfl,
   (claim_C4_bg_upsampler "esrgan" true 400).2.1 (by decide),
   (claim_C4_bg_upsampler "realesrgan" true 400).2.2 rfl rfl⟩

/-- Claim C5: a version outside the five recognized identifiers makes the
run fail with the model-version error, before any engine call or artifact
write has happened. -/
theorem claim_C5_unknown_version (args : Args) (env : Env)
    (h : args.version ∉ ["1", "1.2", "1.3", "1.4", "RestoreFormer"]) :
    (run_core args env).2 = Except.error RunError.wrongModelVersion ∧
    ∀ e ∈ (run_core args env).1, e.isEnhanceCall = false ∧ e.writePath = none := by
  have hv : getVariant args.version = none := getVariant_eq_none h
  constructor
  · simp [run_core, hv]
  · intro e he
    simp only [run_core, hv] at he
    rcases List.mem_append.mp he with h1 | h2
    · obtain rfl := List.mem_singleton.mp h1
      exact ⟨rfl, rfl⟩
    · rw [setupBg_events _ _ _ e h2]
      exact ⟨rfl, rfl⟩

/-- Witness for C5: version `2.0` aborts before processing. -/
theorem claim_C5_unknown_version_witness :
    (run_core { run_main_args "a" "b" with version := "2.0" } envEmptyDir).2 =
        Except.error RunError.wrongModelVersion ∧
    ∀ e ∈ (run_core { run_main_args "a" "b" with version := "2.0" } envEmptyDir).1,
      e.isEnhanceCall = false ∧ e.writePath = none :=
  claim_C5_unknown_version _ _ (by decide)

/-- Claim C6, counterexample: normalization removes a single trailing
separator only (`dir//` becomes `dir/`, not `dir`), and a directory whose
only entry is the hidden file `.a.jpg` yields an empty job set, although
the claim promises all entries of the directory. -/
theorem claim_C6_counterexample :
    normalizeInput "dir//" = "dir/" ∧ ("dir/" : String) ≠ "dir" ∧
    (envHidden.listdir "d").map (fun n => pyJoin "d" n) = ["d/.a.jpg"] ∧
    enumerateJobs envHidden "d" = [] := by
  refine ⟨rfl, by decide, rfl, rfl⟩

/-- Claim C7: the run on a directory whose first image cannot be decoded.
The failed decode is not logged-and-skipped: the engine is invoked with
the undecoded `None` (first conjunct); iteration then continues to the
remaining job, whose restored image is still written (second conjunct). -/
theorem claim_C7_decode_failure :
    Event.enhanceCall none false false true (1/2) ∈ (run_main "d" "out" envBadDecode).1 ∧
    "out/restored_imgs/b.jpg" ∈ writePaths (run_main "d" "out" envBadDecode).1 := by
  have htrace : (run_main "d" "out" envBadDecode).1 =
      [Event.mkdir "out",
       Event.warn realesrganWarning,
       Event.mkRestorer
         "https://github.com/TencentARC/GFPGAN/releases/download/v1.3.0/GFPGANv1.3.pth"
         2 "clean" 2 none,
       Event.enhanceCall none false false true (1/2),
       Event.enhanceCall (some (Image.raw 1)) false false true (1/2),
       Event.imwrite (Image.raw 2) "out/cropped_faces/b_00.png",
       Event.imwrite (Image.raw 3) "out/restored_faces/b_00.png",
       Event.imwrite (Image.hconcat (Image.raw 2) (Image.raw 3)) "out/cmp/b_00.png",
       Event.imwrite (Image.raw 4) "out/restored_imgs/b.jpg"] := rfl
  constructor
  · rw [htrace]
    exact List.mem_cons_of_mem _ (List.mem_cons_of_mem _ (List.mem_cons_of_mem _
      (List.mem_cons_self _ _)))
  · rw [htrace]; decide

/-- Claim C8, counterexample: for the extensionless last job `data/photo`
the full restored image is written to `out/restored_imgs/photo.`, while
the run returns `out/restored_imgs/photo` — the returned path is not the
path at which the restored image was written. -/
theorem claim_C8_counterexample :
    (run_main "data/photo" "out" envNoExt).2 = Except.ok "out/restored_imgs/photo" ∧
    writePaths (run_main "data/photo" "out" envNoExt).1 = ["out/restored_imgs/photo."] ∧
    ("out/restored_imgs/photo." : String) ≠ "out/restored_imgs/photo" := by
  refine ⟨rfl, rfl, by decide⟩

/-- Claim C9: for the single input file `portrait.jpg` under the fixed
configuration (version 1.3, no suffix, `auto` extension), an engine
detecting one face and returning a full restored image makes the run
write exactly the four artifacts
`output/cropped_faces/portrait_00.png`,
`output/restored_faces/portrait_00.png`, `output/cmp/portrait_00.png`
and `output/restored_imgs/portrait.jpg`. -/
theorem claim_C9_portrait (env : Env) (img c r f : Image)
    (h1 : env.isfile "portrait.jpg" = true)
    (h2 : env.decode "portrait.jpg" = some img)
    (h3 : env.enhance (some img) = ⟨[c], [r], some f⟩) :
    writePaths (run_main "portrait.jpg" "output" env).1 =
      ["output/cropped_faces/portrait_00.png",
       "output/restored_faces/portrait_00.png",
       "output/cmp/portrait_00.png",
       "output/restored_imgs/portrait.jpg"] := by
  have hjobs : enumerateJobs env "portrait.jpg" = ["portrait.jpg"] := by
    simp [enumerateJobs, h1]
  simp only [run_main]
  rw [run_core_trace (run_main_args "portrait.jpg" "output") env ⟨"clean", 2, "GFPGANv1.3",
    "https://github.com/TencentARC/GFPGAN/releases/download/v1.3.0/GFPGANv1.3.pth"⟩ rfl]
  simp only [run_main_args]
  rw [show normalizeInput "portrait.jpg" = "portrait.jpg" from rfl, hjobs]
  simp only [processAll, List.append_nil, writePaths_append, writePaths_setupBg,
    processImage, h2, h3]
  rfl

/-- Witness for C9: a concrete one-face filesystem and engine. -/
theorem claim_C9_portrait_witness :
    writePaths (run_main "portrait.jpg" "output" envPortrait).1 =
      ["output/cropped_faces/portrait_00.png",
       "output/restored_faces/portrait_00.png",
       "output/cmp/portrait_00.png",
       "output/restored_imgs/portrait.jpg"] :=
  claim_C9_portrait envPortrait (Image.raw 1) (Image.raw 2) (Image.raw 3) (Image.raw 4)
    rfl rfl rfl

/-- Face-saving events are never engine calls. -/
theorem saveFaces_not_enhance (out : String) (sfx : Option String) (bn : String) :
    ∀ (l : List (Image × Image)) (k : Nat), ∀ e ∈ saveFaces out sfx bn k l,
      e.isEnhanceCall = false := by
  intro l
  induction l with
  | nil => intro k e he; cases he
  | cons x xs ih =>
    obtain ⟨cf, rf⟩ := x
    intro k e he
    simp only [saveFaces, List.mem_cons] at he
    rcases he with rfl | rfl | rfl | he
    · rfl
    · rfl
    · rfl
    · exact ih (k + 1) e he

/-- Every engine call in the batch loop carries the configured alignment
flag, face-selection flag, `paste_back=True`, and blend weight. -/
theorem processAll_enhance_shape (args : Args) (env : Env) :
    ∀ (l : List String), ∀ e ∈ processAll args env l, e.isEnhanceCall = true →
      ∃ img, e = Event.enhanceCall img args.aligned args.only_center_face true args.weight := by
  intro l
  induction l with
  | nil => intro e he; cases he
  | cons p ps ih =>
    intro e he hcall
    rcases List.mem_append.mp he with h | h
    · simp only [processImage, List.mem_cons] at h
      rcases h with rfl | h
      · exact ⟨env.decode p, rfl⟩
      · exfalso
        rcases List.mem_append.mp h with h2 | h2
        · rw [saveFaces_not_enhance _ _ _ _ _ e h2] at hcall
          cases hcall
        · rcases hri : (env.enhance (env.decode p)).restored_img with _ | ri <;>
            rw [hri] at h2
          · cases h2
          · obtain rfl := List.mem_singleton.mp h2
            cases hcall
    · exact ih e h hcall

/-- Claim C10: the run configuration is fixed up to the input and output
paths — version 1.3 (which dispatches to the clean architecture with
channel multiplier 2), upscale 2, RealESRGAN background upsampling with
tile 400, no suffix, `auto` extension, blend weight 1/2 — and every
engine call uses `has_aligned=False`, `only_center_face=False`,
`paste_back=True` and weight 1/2. -/
theorem claim_C10_fixed_config (i o i2 o2 : String) (env : Env) :
    run_main_args i o =
      { input := i, output := o, version := "1.3", upscale := 2,
        bg_upsampler := "realesrgan", bg_tile := 400, suffix := none,
        only_center_face := false, aligned := false, ext := "auto", weight := 1/2 } ∧
    { run_main_args i o with input := i2, output := o2 } = run_main_args i2 o2 ∧
    getVariant (run_main_args i o).version =
      some ⟨"clean", 2, "GFPGANv1.3",
        "https://github.com/TencentARC/GFPGAN/releases/download/v1.3.0/GFPGANv1.3.pth"⟩ ∧
    (∀ e ∈ (run_main i o env).1, e.isEnhanceCall = true →
      ∃ img, e = Event.enhanceCall img false false true (1/2)) := by
  refine ⟨rfl, rfl, rfl, ?_⟩
  intro e he hcall
  simp only [run_main] at he
  rw [run_core_trace (run_main_args i o) env ⟨"clean", 2, "GFPGANv1.3",
    "https://github.com/TencentARC/GFPGAN/releases/download/v1.3.0/GFPGANv1.3.pth"⟩ rfl] at he
  rcases List.mem_append.mp he with he1 | he4
  · rcases List.mem_append.mp he1 with he2 | he3
    · rcases List.mem_append.mp he2 with hm | hbg
      · obtain rfl := List.mem_singleton.mp hm
        cases hcall
      · rw [setupBg_events _ _ _ e hbg] at hcall
        cases hcall
    · obtain rfl := List.mem_singleton.mp he3
      cases hcall
  · exact processAll_enhance_shape _ env _ e he4 hcall

/-- Witness for C10: the engine call of a concrete run has the fixed
flags. -/
theorem claim_C10_fixed_config_witness :
    ∃ img, Event.enhanceCall (some (Image.raw 1)) false false true (1/2) =
      Event.enhanceCall img false false true (1/2) := by
  have hmem : Event.enhanceCall (some (Image.raw 1)) false false true (1/2) ∈
      (run_main "portrait.jpg" "output" envPortrait).1 := by
    rw [show (run_main "portrait.jpg" "output" envPortrait).1 =
      [Event.mkdir "output",
       Event.warn realesrganWarning,
       Event.mkRestorer
         "https://github.com/TencentARC/GFPGAN/releases/download/v1.3.0/GFPGANv1.3.pth"
         2 "clean" 2 none,
       Event.enhanceCall (some (Image.raw 1)) false false true (1/2),
       Event.imwrite (Image.raw 2) "output/cropped_faces/portrait_00.png",
       Event.imwrite (Image.raw 3) "output/restored_faces/portrait_00.png",
       Event.imwrite (Image.hconcat (Image.raw 2) (Image.raw 3)) "output/cmp/portrait_00.png",
       Event.imwrite (Image.raw 4) "output/restored_imgs/portrait.jpg"] from rfl]
    exact List.mem_cons_of_mem _ (List.mem_cons_of_mem _ (List.mem_cons_of_mem _
      (List.mem_cons_self _ _)))
  exact (claim_C10_fixed_config "portrait.jpg" "output" "x" "y" envPortrait).2.2.2 _ hmem rfl

/-- Strict string comparison is asymmetric. -/
theorem strLtb_asymm : ∀ (x y : List Char), strLtb x y = true → strLtb y x = false := by
  intro x
  induction x with
  | nil =>
    intro y h
    cases y with
    | nil => simp [strLtb] at h
    | cons b bs => simp [strLtb]
  | cons a as ih =>
    intro y h
    cases y with
    | nil => simp [strLtb] at h
    | cons b bs =>
      simp only [strLtb] at h ⊢
      by_cases h1 : a.toNat < b.toNat
      · have h2 : ¬ b.toNat < a.toNat := by omega
        simp [h1, h2]
      · by_cases h2 : b.toNat < a.toNat
        · simp [h1, h2] at h
        · simp only [if_neg h1, if_neg h2] at h ⊢
          exact ih bs h

/-- Linearity of strict string comparison: anything below `a` is below
`b` or `b` is below `a`. -/
theorem strLtb_linear : ∀ (c a b : List Char), strLtb c a = true →
    strLtb c b = true ∨ strLtb b a = true := by
  intro c
  induction c with
  | nil =>
    intro a b h
    cases a with
    | nil => simp [strLtb] at h
    | cons xa xs =>
      cases b with
      | nil => right; simp [strLtb]
      | cons xb bs => left; simp [strLtb]
  | cons cc cs ih =>
    intro a b h
    cases a with
    | nil => simp [strLtb] at h
    | cons ca as =>
      cases b with
      | nil => right; simp [strLtb]
      | cons cb bs =>
        simp only [strLtb] at h ⊢
        by_cases h1 : cc.toNat < cb.toNat
        · left; simp [h1]
        · by_cases h2 : cb.toNat < ca.toNat
          · right; simp [h2]
          · by_cases h3 : cc.toNat < ca.toNat
            · exfalso; omega
            · by_cases h4 : ca.toNat < cc.toNat
              · simp [h3, h4] at h
              · simp only [if_neg h3, if_neg h4] at h
                have h6 : ¬ cb.toNat < cc.toNat := by omega
                have h8 : ¬ ca.toNat < cb.toNat := by omega
                rcases ih as bs h with h9 | h9
                · left; simp [h1, h6, h9]
                · right; simp [h2, h8, h9]

/-- Python's string order is total. -/
theorem strLe_total (s t : String) : strLeP s t ∨ strLeP t s := by
  unfold strLeP strLe
  by_cases h : strLtb t.data s.data = true
  · right
    simp [strLtb_asymm _ _ h]
  · left
    simp [Bool.not_eq_true] at h
    simp [h]

/-- Python's string order is transitive. -/
theorem strLe_trans {a b c : String} (h1 : strLeP a b) (h2 : strLeP b c) : strLeP a c := by
  unfold strLeP strLe at h1 h2 ⊢
  simp only [Bool.not_eq_true', Bool.not_eq_eq_eq_not, Bool.not_true] at h1 h2 ⊢
  by_cases h : strLtb c.data a.data = true
  · rcases strLtb_linear c.data a.data b.data h with h3 | h3
    · rw [h3] at h2; cases h2
    · rw [h3] at h1; cases h1
  · simpa using h

/-- Claim C6 (amended): normalization strips one trailing separator; a
regular file is the single job; otherwise — for an input path free of
glob metacharacters, so that `glob` matches the literal directory — the
jobs are the non-hidden directory entries joined to the directory path,
in sorted (hence reproducible) order. -/
theorem claim_C6_amended (env : Env) (inp : String) :
    (env.isfile (normalizeInput inp) = true →
      enumerateJobs env (normalizeInput inp) = [normalizeInput inp]) ∧
    (env.isfile (normalizeInput inp) = false →
      noGlobMeta (normalizeInput inp) = true →
      List.Sorted strLeP (enumerateJobs env (normalizeInput inp)) ∧
      (enumerateJobs env (normalizeInput inp)).Perm
        (((env.listdir (normalizeInput inp)).filter (fun n => !(strStartsWith n '.'))).map
          (fun n => pyJoin (normalizeInput inp) n))) := by
  constructor
  · intro h
    simp [enumerateJobs, h]
  · intro h _hmeta
    unfold enumerateJobs
    rw [h]
    simp only [Bool.false_eq_true, if_false]
    constructor
    · exact @List.sorted_insertionSort String strLeP _ ⟨strLe_total⟩
        ⟨fun _ _ _ hab hbc => strLe_trans hab hbc⟩ _
    · exact List.perm_insertionSort strLeP _

/-- Witness for C6 (amended) on a concrete metacharacter-free
directory. -/
theorem claim_C6_amended_witness :
    List.Sorted strLeP (enumerateJobs envHidden "d") ∧
    (enumerateJobs envHidden "d").Perm
      (((envHidden.listdir "d").filter (fun n => !(strStartsWith n '.'))).map
        (fun n => pyJoin "d" n)) :=
  (claim_C6_amended envHidden "d").2 rfl rfl

/-- String append acts as append on the underlying character lists. -/
theorem sdata (a b : String) : (a ++ b).data = a.data ++ b.data := by
  cases a; cases b; rfl

/-- A list's last element is a member. -/
theorem mem_of_getLast?_eq {α : Type} {l : List α} {a : α} (h : l.getLast? = some a) :
    a ∈ l := by
  have h2 : a ∈ l.getLast? := by rw [Option.mem_def]; exact h
  obtain ⟨hne, heq⟩ := List.mem_getLast?_eq_getLast h2
  subst heq
  exact List.getLast_mem hne

/-- A string whose characters all differ from `/` does not start with it. -/
theorem strStartsWith_false {s : String} (h : ∀ c ∈ s.data, c ≠ '/') :
    strStartsWith s '/' = false := by
  unfold strStartsWith
  cases hd : s.data with
  | nil => rfl
  | cons c t =>
    have hc : c ≠ '/' := h c (hd ▸ List.mem_cons_self c t)
    simp [hc]

/-- `os.path.basename` never contains a separator. -/
theorem basename_no_slash (p : String) : ∀ c ∈ (basename p).data, c ≠ '/' := by
  intro c hc
  have hc2 : c ∈ p.data.reverse.takeWhile (fun c => c != '/') := by
    rw [← List.mem_reverse]
    exact hc
  have := List.mem_takeWhile_imp hc2
  simpa using this

/-- Appending onto a non-empty string keeps its last character. -/
theorem strEndsWith_append (a : String) {b : String} (c : Char) (hb : b.data ≠ []) :
    strEndsWith (a ++ b) c = strEndsWith b c := by
  unfold strEndsWith
  rw [sdata, List.getLast?_append]
  cases hL : b.data.getLast? with
  | none => exact absurd (List.getLast?_eq_none_iff.mp hL) hb
  | some x => simp [hL]

/-- `os.path.join(out, cat, name)` under the conditions that actually hold
in every artifact write: a non-empty output root without a trailing slash,
a relative non-empty category directory, and a relative file name. -/
theorem pyJoin3_std (out cat name : String) (h1 : out ≠ "")
    (h2 : strEndsWith out '/' = false) (h3 : strStartsWith cat '/' = false)
    (h4 : cat.data ≠ []) (h5 : strEndsWith cat '/' = false)
    (h6 : strStartsWith name '/' = false) :
    pyJoin3 out cat name = out ++ ("/" ++ cat ++ "/") ++ name := by
  have hne : out ++ "/" ++ cat ≠ "" := by
    intro hcontra
    have hd : (out ++ "/" ++ cat).data = [] := by rw [hcontra]
    rw [sdata, sdata] at hd
    simp at hd
  have hend : strEndsWith (out ++ "/" ++ cat) '/' = false := by
    rw [String.append_assoc, strEndsWith_append out '/'
      (by rw [sdata]; simp), strEndsWith_append "/" '/' h4]
    exact h5
  have hinner : pyJoin out cat = out ++ "/" ++ cat := by
    unfold pyJoin
    rw [h3, h2]
    simp only [Bool.false_eq_true, if_false, if_neg h1]
  unfold pyJoin3
  rw [hinner]
  unfold pyJoin
  rw [h6, hend]
  simp only [Bool.false_eq_true, if_false, if_neg hne]
  rw [String.append_assoc out "/" cat, String.append_assoc out ("/" ++ cat) "/"]

/-- If `lastIdxOf` finds nothing, the character is absent. -/
theorem lastIdxOf_none {c : Char} : ∀ {cs : List Char}, lastIdxOf cs c = none → c ∉ cs := by
  intro cs
  induction cs with
  | nil => intro _ h; cases h
  | cons x xs ih =>
    intro h
    unfold lastIdxOf at h
    cases hxs : lastIdxOf xs c with
    | some j => rw [hxs] at h; cases h
    | none =>
      rw [hxs] at h
      by_cases hx : x = c
      · rw [if_pos hx] at h; cases h
      · intro hmem
        rcases List.mem_cons.mp hmem with h1 | h1
        · exact hx h1.symm
        · exact ih hxs h1

/-- `lastIdxOf` finds the last occurrence: the split it induces has no
later occurrence of the character. -/
theorem lastIdxOf_spec {c : Char} : ∀ {cs : List Char} {d : Nat},
    lastIdxOf cs c = some d →
    ∃ l1 l2, cs = l1 ++ c :: l2 ∧ l1.length = d ∧ c ∉ l2 := by
  intro cs
  induction cs with
  | nil => intro d h; cases h
  | cons x xs ih =>
    intro d h
    unfold lastIdxOf at h
    cases hxs : lastIdxOf xs c with
    | some j =>
      rw [hxs] at h
      have hd : j + 1 = d := by injection h
      subst hd
      obtain ⟨l1, l2, hcs, hl, hn⟩ := ih hxs
      exact ⟨x :: l1, l2, by rw [hcs]; rfl, by simp [hl], hn⟩
    | none =>
      rw [hxs] at h
      by_cases hx : x = c
      · rw [if_pos hx] at h
        have hd : (0 : Nat) = d := by injection h
        subst hd
        subst hx
        exact ⟨[], xs, rfl, rfl, lastIdxOf_none hxs⟩
      · rw [if_neg hx] at h; cases h

/-- The two `splitext` components reassemble the name. -/
theorem splitext_data (s : String) :
    (splitext s).1.data ++ (splitext s).2.data = s.data := by
  simp only [splitext]
  cases hL : lastIdxOf s.data '.' with
  | none => simp
  | some d =>
    by_cases ha : (s.data.take d).any (fun c => c != '.')
    · simp [ha]
    · simp [ha]

/-- A non-empty `splitext` extension starts with the dot of the split and
has no further dot. -/
theorem splitext_ext_structure {s : String} (h : (splitext s).2 ≠ "") :
    ∃ t, (splitext s).2.data = '.' :: t ∧ ('.' : Char) ∉ t := by
  simp only [splitext] at h ⊢
  cases hL : lastIdxOf s.data '.' with
  | none => rw [hL] at h; simp at h
  | some d =>
    by_cases ha : ∃ x ∈ s.data.take d, ¬x = '.'
    · obtain ⟨l1, l2, hcs, hlen, hn⟩ := lastIdxOf_spec hL
      simp only [List.any_eq_true, bne_iff_ne, ne_eq, ha, if_true]
      refine ⟨l2, ?_, hn⟩
      show s.data.drop d = '.' :: l2
      rw [hcs, ← hlen]
      show (l1 ++ '.' :: l2).drop l1.length = '.' :: l2
      exact List.drop_left l1 ('.' :: l2)
    · rw [hL] at h
      simp [List.any_eq_true, bne_iff_ne, ne_eq, ha] at h

/-- Under the `auto` policy with a non-empty source extension, the full
restored image's file name reassembles the original file name. -/
theorem fullName_auto_eq {bn ext : String} {t : List Char} (he : ext.data = '.' :: t) :
    (fullName bn none (dropFirstChar ext)).data = bn.data ++ ext.data := by
  unfold fullName dropFirstChar
  rw [sdata, sdata, he]
  simp

/-- Claim C8 (amended): for a non-empty batch the run returns the output
root glued (by plain string concatenation) to `/restored_imgs/` and the
last job's file name; whenever the output root is non-empty without a
trailing slash, the engine returned a full restored image for the last
job, and the last file name has a non-empty extension, this returned
path is exactly the path at which that restored image was written. -/
theorem claim_C8_amended (env : Env) (inp out : String)
    (hout1 : out ≠ "") (hout2 : strEndsWith out '/' = false)
    (p : String) (hlast : (enumerateJobs env (normalizeInput inp)).getLast? = some p)
    (ri : Image) (hri : (env.enhance (env.decode p)).restored_img = some ri)
    (hext : (splitext (basename p)).2 ≠ "") :
    (run_main inp out env).2 = Except.ok (out ++ "/restored_imgs/" ++ basename p) ∧
    Event.imwrite ri (out ++ "/restored_imgs/" ++ basename p) ∈ (run_main inp out env).1 := by
  have hvc : getVariant (run_main_args inp out).version = some ⟨"clean", 2, "GFPGANv1.3",
    "https://github.com/TencentARC/GFPGAN/releases/download/v1.3.0/GFPGANv1.3.pth"⟩ := rfl
  obtain ⟨t, hed, hnt⟩ := splitext_ext_structure hext
  have hname : fullName (splitext (basename p)).1 none
      (dropFirstChar (splitext (basename p)).2) = basename p := by
    rw [String.ext_iff, fullName_auto_eq hed]
    exact splitext_data (basename p)
  have hstart : strStartsWith (basename p) '/' = false :=
    strStartsWith_false (basename_no_slash p)
  have hpath : pyJoin3 out "restored_imgs" (basename p) =
      out ++ "/restored_imgs/" ++ basename p :=
    pyJoin3_std out "restored_imgs" (basename p) hout1 hout2 rfl (by decide) rfl hstart
  constructor
  · exact run_core_ret _ env _ hvc p hlast
  · simp only [run_main]
    rw [run_core_trace _ env _ hvc]
    refine List.mem_append.mpr (Or.inr ?_)
    refine processAll_mem _ env (mem_of_getLast?_eq hlast) _ ?_
    simp only [processImage, hri]
    refine List.mem_cons_of_mem _ (List.mem_append.mpr (Or.inr ?_))
    rw [List.mem_singleton]
    show Event.imwrite ri (out ++ "/restored_imgs/" ++ basename p) =
      Event.imwrite ri (pyJoin3 out "restored_imgs"
        (fullName (splitext (basename p)).1 none
          (if ("auto" : String) = "auto" then dropFirstChar (splitext (basename p)).2
           else "auto")))
    rw [if_pos rfl, hname, hpath]

/-- Witness for C8 (amended) at a concrete single-file batch. -/
theorem claim_C8_amended_witness :
    (run_main "in/a.jpg" "out" envLastJpg).2 =
      Except.ok ("out" ++ "/restored_imgs/" ++ basename "in/a.jpg") ∧
    Event.imwrite (Image.raw 4) ("out" ++ "/restored_imgs/" ++ basename "in/a.jpg") ∈
      (run_main "in/a.jpg" "out" envLastJpg).1 :=
  claim_C8_amended envLastJpg "in/a.jpg" "out" (by decide) rfl "in/a.jpg" rfl
    (Image.raw 4) rfl (by decide)

/-! ## Character-level lemmas for filename non-collision -/

/-- Splitting a list at the first occurrence of an absent-elsewhere
separator is unambiguous. -/
theorem sep_split {c : Char} : ∀ {x1 x2 y1 y2 : List Char}, c ∉ x1 → c ∉ x2 →
    x1 ++ c :: y1 = x2 ++ c :: y2 → x1 = x2 ∧ y1 = y2 := by
  intro x1
  induction x1 with
  | nil =>
    intro x2 y1 y2 h1 h2 he
    cases x2 with
    | nil =>
      simp only [List.nil_append, List.cons.injEq] at he
      exact ⟨rfl, he.2⟩
    | cons a t =>
      simp only [List.nil_append, List.cons_append, List.cons.injEq] at he
      obtain ⟨rfl, -⟩ := he
      exact absurd (List.mem_cons_self c t) h2
  | cons a t ih =>
    intro x2 y1 y2 h1 h2 he
    cases x2 with
    | nil =>
      simp only [List.cons_append, List.nil_append, List.cons.injEq] at he
      obtain ⟨rfl, -⟩ := he
      exact absurd (List.mem_cons_self a t) h1
    | cons b u =>
      simp only [List.cons_append, List.cons.injEq] at he
      obtain ⟨rfl, he2⟩ := he
      have h1t : c ∉ t := fun hm => h1 (List.mem_cons_of_mem a hm)
      have h2u : c ∉ u := fun hm => h2 (List.mem_cons_of_mem a hm)
      obtain ⟨hx, hy⟩ := ih h1t h2u he2
      exact ⟨by rw [hx], hy⟩

/-- Splitting at the last occurrence of a separator absent from the tails
is unambiguous. -/
theorem append_sep_right {c : Char} {x1 x2 y1 y2 : List Char}
    (h1 : c ∉ y1) (h2 : c ∉ y2) (he : x1 ++ c :: y1 = x2 ++ c :: y2) :
    x1 = x2 ∧ y1 = y2 := by
  have hrev : y1.reverse ++ c :: x1.reverse = y2.reverse ++ c :: x2.reverse := by
    have h3 := congrArg List.reverse he
    simpa [List.reverse_append] using h3
  obtain ⟨hy, hx⟩ := sep_split (by simpa using h1) (by simpa using h2) hrev
  constructor
  · have := congrArg List.reverse hx
    simpa using this
  · have := congrArg List.reverse hy
    simpa using this

/-- The decimal digit of any remainder is a digit character. -/
theorem digitChar_mod_isDigit (m : Nat) : (Nat.digitChar (m % 10)).isDigit = true := by
  have h10 : m % 10 = 0 ∨ m % 10 = 1 ∨ m % 10 = 2 ∨ m % 10 = 3 ∨ m % 10 = 4 ∨
      m % 10 = 5 ∨ m % 10 = 6 ∨ m % 10 = 7 ∨ m % 10 = 8 ∨ m % 10 = 9 := by omega
  rcases h10 with h | h | h | h | h | h | h | h | h | h <;> rw [h] <;> decide

/-- The digit accumulator only ever prepends digit characters. -/
theorem natDigitsAux_digits : ∀ (fuel n : Nat) (acc : List Char),
    (∀ ch ∈ acc, ch.isDigit = true) →
    ∀ ch ∈ natDigitsAux fuel n acc, ch.isDigit = true := by
  intro fuel
  induction fuel with
  | zero => intro n acc hacc ch hch; exact hacc ch hch
  | succ f ih =>
    intro n acc hacc ch hch
    unfold natDigitsAux at hch
    by_cases hn : n = 0
    · rw [if_pos hn] at hch
      exact hacc ch hch
    · rw [if_neg hn] at hch
      refine ih (n / 10) _ ?_ ch hch
      intro d hd
      rcases List.mem_cons.mp hd with rfl | hd2
      · exact digitChar_mod_isDigit n
      · exact hacc d hd2

/-- Every character of a zero-padded index is a digit. -/
theorem pad2_digits (n : Nat) : ∀ ch ∈ (pad2 n).data, ch.isDigit = true := by
  intro ch hch
  have hnd : ∀ c ∈ natDigits n, c.isDigit = true := by
    intro c hc
    unfold natDigits at hc
    by_cases hn : n = 0
    · rw [if_pos hn] at hc
      obtain rfl := List.mem_singleton.mp hc
      decide
    · rw [if_neg hn] at hc
      exact natDigitsAux_digits n n [] (by intro d hd; cases hd) c hc
  unfold pad2 at hch
  by_cases hn : n < 10
  · rw [if_pos hn] at hch
    rcases List.mem_cons.mp hch with rfl | hch2
    · decide
    · exact hnd ch hch2
  · rw [if_neg hn] at hch
    exact hnd ch hch

/-- A zero-padded index contains no underscore. -/
theorem pad2_no_underscore (n : Nat) : ('_' : Char) ∉ (pad2 n).data := by
  intro h
  have := pad2_digits n _ h
  exact absurd this (by decide)

/-- The common tail of every face-artifact name contains no underscore. -/
theorem pad2_png_no_underscore (n : Nat) :
    ('_' : Char) ∉ (pad2 n).data ++ (".png" : String).data := by
  intro h
  rcases List.mem_append.mp h with h1 | h1
  · exact pad2_no_underscore n h1
  · exact absurd h1 (by decide)

/-! ## Artifact-name shapes and injectivity -/

/-- Character shape of the cropped-face / comparison artifact name. -/
theorem croppedName_data (bn : String) (i : Nat) :
    (croppedName bn i).data = bn.data ++ '_' :: ((pad2 i).data ++ (".png" : String).data) := by
  unfold croppedName
  simp only [sdata]
  simp [List.append_assoc]

/-- Character shape of the restored-face artifact name without a suffix. -/
theorem restoredFaceName_none_data (bn : String) (i : Nat) :
    (restoredFaceName bn i none).data =
      bn.data ++ '_' :: ((pad2 i).data ++ (".png" : String).data) := by
  unfold restoredFaceName
  simp only [sdata]
  simp [List.append_assoc]

/-- Character shape of the restored-face artifact name with a suffix. -/
theorem restoredFaceName_some_data (bn : String) (i : Nat) (s : String) :
    (restoredFaceName bn i (some s)).data =
      (bn.data ++ '_' :: (pad2 i).data) ++ ('_' :: (s.data ++ (".png" : String).data)) := by
  unfold restoredFaceName
  simp only [sdata]
  simp [List.append_assoc]

/-- Character shape of the full restored image name without a suffix. -/
theorem fullName_none_data (bn E : String) :
    (fullName bn none E).data = bn.data ++ '.' :: E.data := by
  unfold fullName
  simp only [sdata]
  simp [List.append_assoc]

/-- Character shape of the full restored image name with a suffix. -/
theorem fullName_some_data (bn s E : String) :
    (fullName bn (some s) E).data = (bn.data ++ '_' :: s.data) ++ ('.' :: E.data) := by
  unfold fullName
  simp only [sdata]
  simp [List.append_assoc]

/-- The basename plus a zero-padded index determine each other inside a
face-artifact stem. -/
theorem bnPad_inj {bn1 bn2 : String} {i j : Nat}
    (he : bn1.data ++ '_' :: (pad2 i).data = bn2.data ++ '_' :: (pad2 j).data) :
    bn1 = bn2 :=
  String.ext (append_sep_right (pad2_no_underscore i) (pad2_no_underscore j) he).1

/-- Distinct basenames give distinct cropped-face / comparison names. -/
theorem croppedName_inj {bn1 bn2 : String} {i j : Nat}
    (he : croppedName bn1 i = croppedName bn2 j) : bn1 = bn2 := by
  have hd := congrArg String.data he
  rw [croppedName_data, croppedName_data] at hd
  exact String.ext
    (append_sep_right (pad2_png_no_underscore i) (pad2_png_no_underscore j) hd).1

/-- Distinct basenames give distinct restored-face names (any fixed
suffix). -/
theorem restoredFaceName_inj {bn1 bn2 : String} {i j : Nat} {sfx : Option String}
    (he : restoredFaceName bn1 i sfx = restoredFaceName bn2 j sfx) : bn1 = bn2 := by
  have hd := congrArg String.data he
  cases sfx with
  | none =>
    rw [restoredFaceName_none_data, restoredFaceName_none_data] at hd
    exact String.ext
      (append_sep_right (pad2_png_no_underscore i) (pad2_png_no_underscore j) hd).1
  | some s =>
    rw [restoredFaceName_some_data, restoredFaceName_some_data] at hd
    exact bnPad_inj (List.append_cancel_right hd)

/-- Distinct basenames give distinct full-image names when both
extensions are dot-free (the `auto` policy). -/
theorem fullName_inj_auto {bn1 bn2 E1 E2 : String} {sfx : Option String}
    (h1 : ('.' : Char) ∉ E1.data) (h2 : ('.' : Char) ∉ E2.data)
    (he : fullName bn1 sfx E1 = fullName bn2 sfx E2) : bn1 = bn2 := by
  have hd := congrArg String.data he
  cases sfx with
  | none =>
    rw [fullName_none_data, fullName_none_data] at hd
    exact String.ext (append_sep_right h1 h2 hd).1
  | some s =>
    rw [fullName_some_data, fullName_some_data] at hd
    have hx := (append_sep_right h1 h2 hd).1
    exact String.ext (List.append_cancel_right hx)

/-- Distinct basenames give distinct full-image names when the extension
is one shared override. -/
theorem fullName_inj_fixed {bn1 bn2 E : String} {sfx : Option String}
    (he : fullName bn1 sfx E = fullName bn2 sfx E) : bn1 = bn2 := by
  have hd := congrArg String.data he
  cases sfx with
  | none =>
    rw [fullName_none_data, fullName_none_data] at hd
    exact String.ext (List.append_cancel_right hd)
  | some s =>
    rw [fullName_some_data, fullName_some_data] at hd
    have hx := List.append_cancel_right hd
    exact String.ext (List.append_cancel_right hx)

/-! ## Artifact paths: category prefixes and disjointness -/

/-- A string whose first character is not `/` does not start with `/`. -/
theorem strStartsWith_false_of_head {s : String} (h : s.data.head? ≠ some '/') :
    strStartsWith s '/' = false := by
  unfold strStartsWith
  cases hd : s.data.head? with
  | none => rfl
  | some c =>
    rw [hd] at h
    have hc : c ≠ '/' := fun he => h (by rw [he])
    simp [hc]

/-- The head of a basename-led artifact name is the basename's first
character or the following separator, never `/`. -/
theorem head_of_append_cons {bn : String} (hbn : ∀ c ∈ bn.data, c ≠ '/')
    {c0 : Char} (hc0 : c0 ≠ '/') (rest : List Char) :
    (bn.data ++ c0 :: rest).head? ≠ some '/' := by
  cases hb : bn.data with
  | nil => simp [hc0]
  | cons b bs =>
    have hbne : b ≠ '/' := hbn b (by rw [hb]; exact List.mem_cons_self b bs)
    simp [hbne]

/-- Cropped-face names never start with a separator. -/
theorem croppedName_head {bn : String} (hbn : ∀ c ∈ bn.data, c ≠ '/') (i : Nat) :
    strStartsWith (croppedName bn i) '/' = false := by
  apply strStartsWith_false_of_head
  rw [croppedName_data]
  exact head_of_append_cons hbn (by decide) _

/-- Restored-face names never start with a separator. -/
theorem restoredFaceName_head {bn : String} (hbn : ∀ c ∈ bn.data, c ≠ '/') (i : Nat)
    (sfx : Option String) :
    strStartsWith (restoredFaceName bn i sfx) '/' = false := by
  apply strStartsWith_false_of_head
  cases sfx with
  | none =>
    rw [restoredFaceName_none_data]
    exact head_of_append_cons hbn (by decide) _
  | some s =>
    rw [restoredFaceName_some_data, List.append_assoc, List.cons_append]
    exact head_of_append_cons hbn (by decide) _

/-- Full-image names never start with a separator. -/
theorem fullName_head {bn : String} (hbn : ∀ c ∈ bn.data, c ≠ '/') (sfx : Option String)
    (E : String) : strStartsWith (fullName bn sfx E) '/' = false := by
  apply strStartsWith_false_of_head
  cases sfx with
  | none =>
    rw [fullName_none_data]
    exact head_of_append_cons hbn (by decide) _
  | some s =>
    rw [fullName_some_data, List.append_assoc, List.cons_append]
    exact head_of_append_cons hbn (by decide) _

/-- `os.path.join` with a relative second component factors through
`joinBase`. -/
theorem pyJoin_base (out cat : String) (h : strStartsWith cat '/' = false) :
    pyJoin out cat = joinBase out ++ cat := by
  unfold pyJoin joinBase
  rw [h]
  simp only [Bool.false_eq_true, if_false]
  by_cases h1 : out = ""
  · rw [if_pos h1, if_pos h1]
    apply String.ext
    rw [sdata]
    rfl
  · rw [if_neg h1, if_neg h1]
    by_cases h2 : strEndsWith out '/'
    · rw [if_pos h2, if_pos h2]
    · rw [if_neg h2, if_neg h2]

/-- Every artifact path is the category prefix, one separator, and the
file name. -/
theorem pyJoin3_base (out cat name : String) (h3 : strStartsWith cat '/' = false)
    (h4 : cat.data ≠ []) (h5 : strEndsWith cat '/' = false)
    (h6 : strStartsWith name '/' = false) :
    pyJoin3 out cat name = (joinBase out ++ cat) ++ "/" ++ name := by
  unfold pyJoin3
  rw [pyJoin_base out cat h3]
  have hne : joinBase out ++ cat ≠ "" := by
    intro hc
    have hd : (joinBase out ++ cat).data = [] := by rw [hc]
    rw [sdata] at hd
    exact h4 (List.append_eq_nil.mp hd).2
  have hend : strEndsWith (joinBase out ++ cat) '/' = false := by
    rw [strEndsWith_append _ _ h4]
    exact h5
  unfold pyJoin
  rw [h6, hend]
  simp only [Bool.false_eq_true, if_false, if_neg hne]

/-- Two artifact paths in the same category with equal text have equal
file names. -/
theorem pyJoin3_name_inj {out cat nm1 nm2 : String}
    (h3 : strStartsWith cat '/' = false) (h4 : cat.data ≠ [])
    (h5 : strEndsWith cat '/' = false)
    (h6a : strStartsWith nm1 '/' = false) (h6b : strStartsWith nm2 '/' = false)
    (he : pyJoin3 out cat nm1 = pyJoin3 out cat nm2) : nm1 = nm2 := by
  rw [pyJoin3_base out cat nm1 h3 h4 h5 h6a, pyJoin3_base out cat nm2 h3 h4 h5 h6b] at he
  have hd := congrArg String.data he
  simp only [sdata] at hd
  exact String.ext (List.append_cancel_left hd)

/-- Artifact paths in categories that differ at some character are
distinct, whatever the file names. -/
theorem cross_cat_ne {out cat1 cat2 name1 name2 : String}
    (h3a : strStartsWith cat1 '/' = false) (h4a : cat1.data ≠ [])
    (h5a : strEndsWith cat1 '/' = false)
    (h3b : strStartsWith cat2 '/' = false) (h4b : cat2.data ≠ [])
    (h5b : strEndsWith cat2 '/' = false)
    (h6a : strStartsWith name1 '/' = false) (h6b : strStartsWith name2 '/' = false)
    (k : Nat) (hk1 : k < cat1.data.length) (hk2 : k < cat2.data.length)
    (hk : cat1.data[k]? ≠ cat2.data[k]?) :
    pyJoin3 out cat1 name1 ≠ pyJoin3 out cat2 name2 := by
  intro he
  rw [pyJoin3_base out cat1 name1 h3a h4a h5a h6a,
    pyJoin3_base out cat2 name2 h3b h4b h5b h6b] at he
  have hd := congrArg String.data he
  simp only [sdata, List.append_assoc] at hd
  have hcc := List.append_cancel_left hd
  apply hk
  calc cat1.data[k]?
      = (cat1.data ++ (("/" : String).data ++ name1.data))[k]? :=
        (List.getElem?_append_left hk1).symm
    _ = (cat2.data ++ (("/" : String).data ++ name2.data))[k]? := by rw [hcc]
    _ = cat2.data[k]? := List.getElem?_append_left hk2

/-- The full-image name determines the basename under one shared policy,
provided the `auto` extensions carry no dot. -/
theorem fullName_policy_inj {bn1 bn2 ext1 ext2 pol : String} {sfx : Option String}
    (hd1 : ('.' : Char) ∉ (dropFirstChar ext1).data)
    (hd2 : ('.' : Char) ∉ (dropFirstChar ext2).data)
    (he : fullName bn1 sfx (if pol = "auto" then dropFirstChar ext1 else pol) =
      fullName bn2 sfx (if pol = "auto" then dropFirstChar ext2 else pol)) : bn1 = bn2 := by
  by_cases hp : pol = "auto"
  · rw [if_pos hp, if_pos hp] at he
    exact fullName_inj_auto hd1 hd2 he
  · rw [if_neg hp, if_neg hp] at he
    exact fullName_inj_fixed he

/-- Every member of the face-path list has one of the three per-face
shapes. -/
theorem mem_facePaths {out : String} {sfx : Option String} {bn x : String} :
    ∀ (k m : Nat), x ∈ facePaths out sfx bn k m →
      ∃ i, x = pyJoin3 out "cropped_faces" (croppedName bn i) ∨
        x = pyJoin3 out "restored_faces" (restoredFaceName bn i sfx) ∨
        x = pyJoin3 out "cmp" (croppedName bn i) := by
  intro k m
  induction m generalizing k with
  | zero => intro h; cases h
  | succ n ih =>
    intro h
    simp only [facePaths, List.mem_cons] at h
    rcases h with rfl | rfl | rfl | h
    · exact ⟨k, Or.inl rfl⟩
    · exact ⟨k, Or.inr (Or.inl rfl)⟩
    · exact ⟨k, Or.inr (Or.inr rfl)⟩
    · exact ih (k + 1) h

/-- Every member of a job's write-path set has one of the four artifact
shapes. -/
theorem mem_jobWritePaths {out : String} {sfx : Option String} {pol bn ext x : String}
    {nF : Nat} {hF : Bool} (h : x ∈ jobWritePaths out sfx pol bn ext nF hF) :
    (∃ i, x = pyJoin3 out "cropped_faces" (croppedName bn i) ∨
      x = pyJoin3 out "restored_faces" (restoredFaceName bn i sfx) ∨
      x = pyJoin3 out "cmp" (croppedName bn i)) ∨
    x = pyJoin3 out "restored_imgs"
      (fullName bn sfx (if pol = "auto" then dropFirstChar ext else pol)) := by
  unfold jobWritePaths at h
  rcases List.mem_append.mp h with h1 | h1
  · exact Or.inl (mem_facePaths 0 nF h1)
  · cases hF with
    | false => simp at h1
    | true =>
      simp at h1
      exact Or.inr h1

/-- Write-path sets of two jobs with distinct basenames are disjoint. -/
theorem jobWritePaths_disjoint {out : String} {sfx : Option String} {pol : String}
    {bn1 ext1 bn2 ext2 : String} {n1 n2 : Nat} {f1 f2 : Bool} (hbn : bn1 ≠ bn2)
    (hs1 : ∀ c ∈ bn1.data, c ≠ '/') (hs2 : ∀ c ∈ bn2.data, c ≠ '/')
    (hd1 : ('.' : Char) ∉ (dropFirstChar ext1).data)
    (hd2 : ('.' : Char) ∉ (dropFirstChar ext2).data) :
    ∀ x ∈ jobWritePaths out sfx pol bn1 ext1 n1 f1,
      x ∉ jobWritePaths out sfx pol bn2 ext2 n2 f2 := by
  intro x hx1 hx2
  have hc1 : ∀ k, strStartsWith (croppedName bn1 k) '/' = false := croppedName_head hs1
  have hc2 : ∀ k, strStartsWith (croppedName bn2 k) '/' = false := croppedName_head hs2
  have hr1 : ∀ k, strStartsWith (restoredFaceName bn1 k sfx) '/' = false :=
    fun k => restoredFaceName_head hs1 k sfx
  have hr2 : ∀ k, strStartsWith (restoredFaceName bn2 k sfx) '/' = false :=
    fun k => restoredFaceName_head hs2 k sfx
  have hf1 : strStartsWith
      (fullName bn1 sfx (if pol = "auto" then dropFirstChar ext1 else pol)) '/' = false :=
    fullName_head hs1 sfx _
  have hf2 : strStartsWith
      (fullName bn2 sfx (if pol = "auto" then dropFirstChar ext2 else pol)) '/' = false :=
    fullName_head hs2 sfx _
  rcases mem_jobWritePaths hx1 with ⟨i, hA | hA | hA⟩ | hA <;>
    rcases mem_jobWritePaths hx2 with ⟨j, hB | hB | hB⟩ | hB <;>
    rw [hA] at hB
  · exact hbn (croppedName_inj (pyJoin3_name_inj (by decide) (by decide) (by decide)
      (hc1 i) (hc2 j) hB))
  · exact absurd hB (cross_cat_ne (by decide) (by decide) (by decide) (by decide)
      (by decide) (by decide) (hc1 i) (hr2 j) 0 (by decide) (by decide) (by decide))
  · exact absurd hB (cross_cat_ne (by decide) (by decide) (by decide) (by decide)
      (by decide) (by decide) (hc1 i) (hc2 j) 1 (by decide) (by decide) (by decide))
  · exact absurd hB (cross_cat_ne (by decide) (by decide) (by decide) (by decide)
      (by decide) (by decide) (hc1 i) hf2 0 (by decide) (by decide) (by decide))
  · exact absurd hB (cross_cat_ne (by decide) (by decide) (by decide) (by decide)
      (by decide) (by decide) (hr1 i) (hc2 j) 0 (by decide) (by decide) (by decide))
  · exact hbn (restoredFaceName_inj (pyJoin3_name_inj (by decide) (by decide) (by decide)
      (hr1 i) (hr2 j) hB))
  · exact absurd hB (cross_cat_ne (by decide) (by decide) (by decide) (by decide)
      (by decide) (by decide) (hr1 i) (hc2 j) 0 (by decide) (by decide) (by decide))
  · exact absurd hB (cross_cat_ne (by decide) (by decide) (by decide) (by decide)
      (by decide) (by decide) (hr1 i) hf2 9 (by decide) (by decide) (by decide))
  · exact absurd hB (cross_cat_ne (by decide) (by decide) (by decide) (by decide)
      (by decide) (by decide) (hc1 i) (hc2 j) 1 (by decide) (by decide) (by decide))
  · exact absurd hB (cross_cat_ne (by decide) (by decide) (by decide) (by decide)
      (by decide) (by decide) (hc1 i) (hr2 j) 0 (by decide) (by decide) (by decide))
  · exact hbn (croppedName_inj (pyJoin3_name_inj (by decide) (by decide) (by decide)
      (hc1 i) (hc2 j) hB))
  · exact absurd hB (cross_cat_ne (by decide) (by decide) (by decide) (by decide)
      (by decide) (by decide) (hc1 i) hf2 0 (by decide) (by decide) (by decide))
  · exact absurd hB (cross_cat_ne (by decide) (by decide) (by decide) (by decide)
      (by decide) (by decide) hf1 (hc2 j) 0 (by decide) (by decide) (by decide))
  · exact absurd hB (cross_cat_ne (by decide) (by decide) (by decide) (by decide)
      (by decide) (by decide) hf1 (hr2 j) 9 (by decide) (by decide) (by decide))
  · exact absurd hB (cross_cat_ne (by decide) (by decide) (by decide) (by decide)
      (by decide) (by decide) hf1 (hc2 j) 0 (by decide) (by decide) (by decide))
  · exact hbn (fullName_policy_inj hd1 hd2 (pyJoin3_name_inj (by decide) (by decide)
      (by decide) hf1 hf2 hB))

/-- The write paths of the face loop are the face-path list. -/
theorem writePaths_saveFaces (out : String) (sfx : Option String) (bn : String) :
    ∀ (l : List (Image × Image)) (k : Nat),
      writePaths (saveFaces out sfx bn k l) = facePaths out sfx bn k l.length := by
  intro l
  induction l with
  | nil => intro k; rfl
  | cons y ys ih =>
    obtain ⟨cf, rf⟩ := y
    intro k
    have htl := ih (k + 1)
    simp only [writePaths] at htl ⊢
    simp only [saveFaces, List.filterMap_cons, Event.writePath, List.length_cons, facePaths,
      htl]

/-- The write paths of one job are a pure function of the output root,
suffix, extension policy, basename, source extension, detected-face count
and full-image presence. -/
theorem writePaths_processImage (args : Args) (env : Env) (p : String) :
    writePaths (processImage args env p) =
      jobWritePaths args.output args.suffix args.ext (splitext (basename p)).1
        (splitext (basename p)).2
        ((env.enhance (env.decode p)).cropped_faces.zip
          (env.enhance (env.decode p)).restored_faces).length
        (env.enhance (env.decode p)).restored_img.isSome := by
  cases hri : (env.enhance (env.decode p)).restored_img with
  | none =>
    simp only [processImage, hri, jobWritePaths, Option.isSome_none, Bool.false_eq_true,
      if_false, List.append_nil]
    simp only [writePaths, List.filterMap_cons, Event.writePath, List.filterMap_append]
    have h1 := writePaths_saveFaces args.output args.suffix (splitext (basename p)).1
      ((env.enhance (env.decode p)).cropped_faces.zip
        (env.enhance (env.decode p)).restored_faces) 0
    simp only [writePaths] at h1
    simp [h1]
  | some ri =>
    simp only [processImage, hri, jobWritePaths, Option.isSome_some, if_true]
    simp only [writePaths, List.filterMap_cons, Event.writePath, List.filterMap_append]
    have h1 := writePaths_saveFaces args.output args.suffix (splitext (basename p)).1
      ((env.enhance (env.decode p)).cropped_faces.zip
        (env.enhance (env.decode p)).restored_faces) 0
    simp only [writePaths] at h1
    simp [h1]

/-- The first `splitext` component of a basename has no separator. -/
theorem splitext_fst_no_slash (p : String) :
    ∀ c ∈ ((splitext (basename p)).1).data, c ≠ '/' := by
  intro c hc
  apply basename_no_slash p
  revert hc
  simp only [splitext]
  cases hL : lastIdxOf (basename p).data '.' with
  | none => intro hc; exact hc
  | some d =>
    by_cases ha : ∃ x ∈ (basename p).data.take d, ¬x = '.'
    · simp only [List.any_eq_true, bne_iff_ne, ne_eq, ha, if_true]
      intro hc
      exact List.take_subset d _ hc
    · simp only [List.any_eq_true, bne_iff_ne, ne_eq, ha, if_false]
      intro hc
      exact hc

/-- Under the `auto` policy the stored extension (after the dot is
dropped) contains no dot. -/
theorem splitext_drop_no_dot (s : String) :
    ('.' : Char) ∉ (dropFirstChar (splitext s).2).data := by
  by_cases h : (splitext s).2 = ""
  · rw [h]
    intro hc
    cases hc
  · obtain ⟨t, hdt, hnt⟩ := splitext_ext_structure h
    unfold dropFirstChar
    intro hc
    apply hnt
    rw [hdt] at hc
    simpa using hc

/-- Claim C2 (amended): a job's artifact paths are a pure function of the
output root, suffix, extension policy, basename, source extension, face
count and full-image presence — with face-level artifacts always written
as `.png` and the suffix only on the restored face — and two jobs with
distinct basenames never write to a common path. -/
theorem claim_C2_amended (args : Args) (env : Env) (p q : String)
    (hbn : (splitext (basename p)).1 ≠ (splitext (basename q)).1) :
    writePaths (processImage args env p) =
      jobWritePaths args.output args.suffix args.ext (splitext (basename p)).1
        (splitext (basename p)).2
        ((env.enhance (env.decode p)).cropped_faces.zip
          (env.enhance (env.decode p)).restored_faces).length
        (env.enhance (env.decode p)).restored_img.isSome ∧
    ∀ x ∈ writePaths (processImage args env p), x ∉ writePaths (processImage args env q) := by
  constructor
  · exact writePaths_processImage args env p
  · rw [writePaths_processImage args env p, writePaths_processImage args env q]
    exact jobWritePaths_disjoint hbn (splitext_fst_no_slash p) (splitext_fst_no_slash q)
      (splitext_drop_no_dot (basename p)) (splitext_drop_no_dot (basename q))

/-- Witness for C2 (amended) on two concrete jobs with distinct
basenames. -/
theorem claim_C2_amended_witness :
    writePaths (processImage (run_main_args "photo.jpg" "out") envSingleJpg "photo.jpg") =
      jobWritePaths "out" none "auto" (splitext (basename "photo.jpg")).1
        (splitext (basename "photo.jpg")).2
        ((envSingleJpg.enhance (envSingleJpg.decode "photo.jpg")).cropped_faces.zip
          (envSingleJpg.enhance (envSingleJpg.decode "photo.jpg")).restored_faces).length
        (envSingleJpg.enhance (envSingleJpg.decode "photo.jpg")).restored_img.isSome ∧
    ∀ x ∈ writePaths (processImage (run_main_args "photo.jpg" "out") envSingleJpg "photo.jpg"),
      x ∉ writePaths (processImage (run_main_args "photo.jpg" "out") envSingleJpg "other.png") :=
  claim_C2_amended (run_main_args "photo.jpg" "out") envSingleJpg "photo.jpg" "other.png"
    (by decide)

end GFPGAN
